import Mathlib

set_option maxRecDepth 8000

/-! Shallow embedding of the LLM request-routing and cost-governance core
(intent classifier, model router, usage accountant, budget guard, and the
chat command path). Strings are modelled as lists of characters; every
remote call is modelled by passing its outcome as an explicit argument. -/

/-- Characters of a string literal. -/
def lit (s : String) : List Char := s.data

/-- Python `str.lower` on the message (character-wise lowering). -/
def lowerStr (s : List Char) : List Char := s.map Char.toLower

/-- Python `str.strip`: drop whitespace from both ends. -/
def stripStr (s : List Char) : List Char :=
  ((s.dropWhile Char.isWhitespace).reverse.dropWhile Char.isWhitespace).reverse

/-- Python substring test `needle in hay`. -/
def containsSub (needle : List Char) : List Char → Bool
  | [] => needle.isEmpty
  | c :: rest => needle.isPrefixOf (c :: rest) || containsSub needle rest

/-- Python `any(word in hay for word in needles)`. -/
def containsAny (hay : List Char) (needles : List (List Char)) : Bool :=
  needles.any (fun n => containsSub n hay)

/-- Python `any(hay.startswith(n) for n in needles)`. -/
def startsWithAny (hay : List Char) (needles : List (List Char)) : Bool :=
  needles.any (fun n => n.isPrefixOf hay)

/-- The closed intent enum `ModelIntent` from `gemini_service.py`. -/
inductive ModelIntent
  | roast
  | advice
  | categorize
  | sensitive
  | receipt
  | general
deriving DecidableEq, Repr

/-- `RouterResponse` from `gemini_service.py`: intent, confidence, reasoning. -/
structure RouterResponse where
  intent : ModelIntent
  confidence : ℚ
  reasoning : Option (List Char)
deriving DecidableEq, Repr

/-- The roast keyword list from `_local_intent_heuristics`. -/
def roastWords : List (List Char) :=
  [lit "roast", lit "roasting", lit "mock", lit "burn"]

/-- The greeting list from `_local_intent_heuristics`. -/
def greetingWords : List (List Char) :=
  [lit "hey", lit "hi", lit "hello", lit "what's up", lit "sup", lit "yo",
   lit "howdy"]

/-- The advice trigger list from `_local_intent_heuristics` (code order). -/
def adviceTriggers : List (List Char) :=
  [lit "should i", lit "is it worth", lit "can i afford",
   lit "how much should", lit "help me", lit "advice", lit "recommend",
   lit "budget", lit "invest", lit "save for",
   lit "what do you think about buying", lit "is this a good idea"]

/-- The receipt keyword list from `_local_intent_heuristics`. -/
def receiptWords : List (List Char) :=
  [lit "receipt", lit "scan", lit "bill"]

/-- The complaint keyword list from `_local_intent_heuristics`. -/
def complaintWords : List (List Char) :=
  [lit "broken", lit "not working", lit "bug", lit "issue", lit "problem",
   lit "hate", lit "sucks"]

/-- The settings keyword list from `_local_intent_heuristics`. -/
def settingsWords : List (List Char) :=
  [lit "change", lit "update", lit "set", lit "settings"]

/-- `ModelRouter._local_intent_heuristics`: ordered first-match rules over
the lower-cased stripped message; `none` means the remote classifier is
needed. -/
def localIntentHeuristics (message : List Char) : Option ModelIntent :=
  let msgLower := stripStr (lowerStr message)
  if containsAny msgLower roastWords then some .roast
  else if startsWithAny msgLower greetingWords then some .roast
  else if containsAny msgLower adviceTriggers then some .advice
  else if containsSub (lit "category") msgLower ||
          containsSub (lit "categorize") msgLower then some .categorize
  else if containsAny msgLower receiptWords then some .receipt
  else if containsAny msgLower complaintWords then some .sensitive
  else if containsAny msgLower settingsWords then some .sensitive
  else none

/-- Outcome of the remote Gemini classifier call, as observed by
`GeminiService.classify_intent`: a transport/HTTP-status error, a response
whose body could not be parsed (missing candidates, non-JSON text, or a
non-numeric confidence — all of which raise and are caught), or a parsed
JSON object with its optional fields. -/
inductive RemoteOutcome
  | httpError
  | parseFailure
  | parsed (intent : Option (List Char)) (confidence : Option ℚ)
      (reasoning : Option (List Char))
deriving DecidableEq, Repr

/-- `ModelIntent(intent_str)`: the enum's string values. -/
def modelIntentOfStr (s : List Char) : Option ModelIntent :=
  if s = lit "roast" then some .roast
  else if s = lit "advice" then some .advice
  else if s = lit "categorize" then some .categorize
  else if s = lit "sensitive" then some .sensitive
  else if s = lit "receipt" then some .receipt
  else if s = lit "general" then some .general
  else none

/-- `GeminiService.classify_intent` after the HTTP call: any raised error is
caught and mapped to `(ROAST, 0.5, "fallback due to error")`; a parsed
object is validated against the enum, defaulting the intent to `general`
and the confidence to `0.5`. -/
def geminiClassifyIntent : RemoteOutcome → RouterResponse
  | .httpError => ⟨.roast, 1/2, some (lit "fallback due to error")⟩
  | .parseFailure => ⟨.roast, 1/2, some (lit "fallback due to error")⟩
  | .parsed intent confidence reasoning =>
    let intentStr := lowerStr (intent.getD (lit "general"))
    let validated := (modelIntentOfStr intentStr).getD .general
    ⟨validated, confidence.getD (1/2), reasoning⟩

/-- `ModelRouter.classify_intent` (with `_use_local_heuristics = True`, as
set in `__init__`): local heuristics first, with a fixed confidence of
0.85 and reasoning "local heuristics"; otherwise the remote classifier,
whose outcome is passed explicitly. -/
def classifyIntent (message : List Char) (remote : RemoteOutcome) :
    RouterResponse :=
  match localIntentHeuristics message with
  | some intent => ⟨intent, 85/100, some (lit "local heuristics")⟩
  | none => geminiClassifyIntent remote

/-- The three adapters behind `ModelRouter`'s dispatch. -/
inductive Adapter
  | grok
  | claude
  | gemini
deriving DecidableEq, Repr

/-- `ModelRouter.INTENT_MODEL_MAP` (total over the six intents). -/
def INTENT_MODEL_MAP : ModelIntent → List Char
  | .roast => lit "grok"
  | .general => lit "grok"
  | .advice => lit "claude"
  | .sensitive => lit "claude"
  | .categorize => lit "gemini"
  | .receipt => lit "gemini"

/-- The dispatch chain of `ModelRouter.route`: look the intent up in the
map (defaulting to "grok") and branch on the model-type string. -/
def dispatchAdapter (intent : ModelIntent) : Adapter :=
  let modelType := INTENT_MODEL_MAP intent
  if modelType = lit "grok" then .grok
  else if modelType = lit "claude" then .claude
  else .gemini

/-- One price row of `ModelRouter.COSTS` (USD per million tokens). -/
structure PriceRow where
  inputRate : ℚ
  outputRate : ℚ
  cachedRate : ℚ
deriving DecidableEq, Repr

/-- `ModelRouter.COSTS`: the per-model price table. -/
def COSTS : List (List Char × PriceRow) :=
  [(lit "grok-4-fast", ⟨2/10, 5/10, 5/100⟩),
   (lit "claude-sonnet-4-20250514", ⟨3, 15, 3/10⟩),
   (lit "gemini-2.0-flash", ⟨75/1000, 3/10, 2/100⟩)]

/-- `self.COSTS.get(model, self.COSTS["grok-4-fast"])`. -/
def costsGet (model : List Char) : PriceRow :=
  ((COSTS.find? (fun row => row.1 = model)).map (fun row => row.2)).getD
    ⟨2/10, 5/10, 5/100⟩

/-- `ModelRouter._calculate_cost`: fresh input is `input − cached` with no
clamping, each bucket divided by one million and multiplied by its rate. -/
def calculateCost (model : List Char) (inputTokens outputTokens cachedTokens : ℕ) : ℚ :=
  let costs := costsGet model
  let freshInput : ℚ := (inputTokens : ℚ) - (cachedTokens : ℚ)
  let inputCost := freshInput / 1000000 * costs.inputRate
  let cachedCost := (cachedTokens : ℚ) / 1000000 * costs.cachedRate
  let outputCost := (outputTokens : ℚ) / 1000000 * costs.outputRate
  inputCost + cachedCost + outputCost

/-- Modelled from the spec (claim C1's formula, for comparison with the
source): cost with `fresh_input = max(0, inputTokens − cachedInputTokens)`
and the price row of the event's modelId. -/
def specCostOf (model : List Char) (inputTokens outputTokens cachedTokens : ℕ) : ℚ :=
  let row := costsGet model
  ((max 0 ((inputTokens : ℤ) - (cachedTokens : ℤ)) : ℤ) : ℚ) / 1000000 * row.inputRate +
    (cachedTokens : ℚ) / 1000000 * row.cachedRate +
    (outputTokens : ℚ) / 1000000 * row.outputRate

/-- The result dict each `_call_*` helper of `ModelRouter` returns. -/
structure AdapterResult where
  content : List Char
  model : List Char
  inputTokens : ℕ
  outputTokens : ℕ
  cachedTokens : ℕ
deriving DecidableEq, Repr

/-- Outcome of one primary-adapter HTTP call: a parsed success or a raised
terminal error (network, bad status, timeout), which the adapter catches. -/
inductive CallOutcome
  | ok (r : AdapterResult)
  | error
deriving DecidableEq, Repr

/-- The three fallback roasts of `GrokService._fallback_roast` (the first
is formatted with the user's name). -/
def grokFallbackRoasts (name : List Char) : List (List Char) :=
  [lit "My roasting circuits are overheating, " ++ name ++
     lit ". But I saw that balance - we need to talk.",
   lit "Technical difficulties, but your spending habits don't take breaks. Let's chat when I'm back.",
   lit "Even I need a breather sometimes. Unlike your wallet, apparently."]

/-- `GrokService.roast` + `ModelRouter._call_grok`: on an HTTP error the
service returns `random.choice` over the three fallback roasts (the choice
is passed explicitly) with zero tokens and model "fallback". -/
def callGrok (outcome : CallOutcome) (name : List Char) (choice : Fin 3) :
    AdapterResult :=
  match outcome with
  | .ok r => r
  | .error =>
    ⟨(grokFallbackRoasts name).get ⟨choice.val, by simp [grokFallbackRoasts]⟩,
     lit "fallback", 0, 0, 0⟩

/-- `ModelRouter._call_claude`: any exception yields the fixed fallback
text with zero tokens and model "claude-fallback". -/
def callClaude (outcome : CallOutcome) : AdapterResult :=
  match outcome with
  | .ok r => r
  | .error =>
    ⟨lit "I'm having trouble thinking clearly right now. Can you try again?",
     lit "claude-fallback", 0, 0, 0⟩

/-- `ModelRouter._call_gemini`: any exception yields the fixed fallback
text with zero tokens and model "gemini-fallback". -/
def callGemini (outcome : CallOutcome) : AdapterResult :=
  match outcome with
  | .ok r => r
  | .error =>
    ⟨lit "Let me help you with categories. What would you like to know?",
     lit "gemini-fallback", 0, 0, 0⟩

/-- The `ModelResponse` record assembled at the end of `ModelRouter.route`. -/
structure ModelResponse where
  content : List Char
  model : List Char
  intent : ModelIntent
  inputTokens : ℕ
  outputTokens : ℕ
  cachedTokens : ℕ
  cost : ℚ
deriving DecidableEq, Repr

/-- Steps 3–4 of `ModelRouter.route` for an already classified intent: pick
the single adapter from the table, call it (its outcome passed explicitly —
the code performs exactly one adapter call per request), and assemble the
`ModelResponse` with `_calculate_cost` on the returned counts. Returns the
invoked adapter together with the response. -/
def routeDispatch (intent : ModelIntent) (outcome : CallOutcome)
    (name : List Char) (choice : Fin 3) : Adapter × ModelResponse :=
  let adapter := dispatchAdapter intent
  let r : AdapterResult :=
    match adapter with
    | .grok => callGrok outcome name choice
    | .claude => callClaude outcome
    | .gemini => callGemini outcome
  (adapter,
   ⟨r.content, r.model, intent, r.inputTokens, r.outputTokens, r.cachedTokens,
    calculateCost r.model r.inputTokens r.outputTokens r.cachedTokens⟩)

/-- `MAX_REQUESTS_PER_MINUTE` from `rate_limiter.py`. -/
def MAX_REQUESTS_PER_MINUTE : ℕ := 10

/-- `MAX_TOKENS_PER_DAY` from `rate_limiter.py`. -/
def MAX_TOKENS_PER_DAY : ℕ := 100000

/-- `MAX_COST_PER_DAY` from `rate_limiter.py`. -/
def MAX_COST_PER_DAY : ℚ := 5

/-- `rate_limit_check`: keep only timestamps strictly newer than
`now − 60` (the cleaned list is stored back), refuse when the cap is
already reached, otherwise append the arrival time. Returns the stored
window and whether the request was admitted. Arrival times are integers
standing for the totally ordered clock readings. -/
def rateLimitCheck (now : ℤ) (window : List ℤ) : List ℤ × Bool :=
  let requests := window.filter (fun t => now - 60 < t)
  if MAX_REQUESTS_PER_MINUTE ≤ requests.length then (requests, false)
  else (requests ++ [now], true)

/-- Sequential runs of `rate_limit_check` for one user: each arrival time
is checked against the window left by the previous call; the run records
each arrival time with its admit/refuse outcome. -/
def rateLimitRun (window : List ℤ) : List ℤ → List (ℤ × Bool)
  | [] => []
  | now :: rest =>
    let step := rateLimitCheck now window
    (now, step.2) :: rateLimitRun step.1 rest

/-- Number of admitted checks in a run whose arrival time lies in the
60-second window `(a, a + 60]`. -/
def countWindowAdmits (a : ℤ) (run : List (ℤ × Bool)) : ℕ :=
  run.countP (fun p => p.2 && decide (a < p.1) && decide (p.1 ≤ a + 60))

/-- The budget-refusal kinds surfaced with a 429 status. -/
inductive RefusalKind
  | rateExceeded
  | tokenBudgetExceeded
  | costBudgetExceeded
deriving DecidableEq, Repr

/-- `token_limit_check`: refuse once today's token sum has reached the
token ceiling, else once today's cost has reached the cost ceiling. -/
def tokenLimitCheck (totalTokens : ℕ) (totalCost : ℚ) : Option RefusalKind :=
  if MAX_TOKENS_PER_DAY ≤ totalTokens then some .tokenBudgetExceeded
  else if MAX_COST_PER_DAY ≤ totalCost then some .costBudgetExceeded
  else none

/-- The `@rate_limit` decorator: `rate_limit_check` first (which stores its
updated window whether or not it refuses), then `token_limit_check`; the
wrapped handler runs only when neither refuses. Returns the refusal kind
(if any), the window left in `user_requests`, and whether the handler was
executed (no usage can be written to the ledger when it was not). -/
def rateLimitWrapper (now : ℤ) (window : List ℤ) (totalTokens : ℕ)
    (totalCost : ℚ) : Option RefusalKind × List ℤ × Bool :=
  let step := rateLimitCheck now window
  if step.2 = false then (some .rateExceeded, step.1, false)
  else
    match tokenLimitCheck totalTokens totalCost with
    | some k => (some k, step.1, false)
    | none => (none, step.1, true)

/-- `estimate_tokens`: `len(text) // 4` — floor division, no overhead. -/
def estimateTokens (text : List Char) : ℕ := text.length / 4

/-- `check_budget_available`: today's input+output sum plus three times the
estimated input tokens must stay strictly below the daily token cap. -/
def checkBudgetAvailable (inputToday outputToday estimatedInputTokens : ℕ) :
    Bool :=
  let totalTokens := inputToday + outputToday
  let estimatedTotal := estimatedInputTokens * 3
  totalTokens + estimatedTotal < MAX_TOKENS_PER_DAY

/-- The intensity modes recognized by `ChatServiceV2.handle_command`. -/
inductive IntensityMode
  | insanity
  | mild
  | moderate
deriving DecidableEq, Repr

/-- Greedy parse of the `(?:,\x7bcomma\x7d...)` groups of the amount
pattern: zero or more occurrences of a comma followed by exactly three
digits. Returns the matched characters and the remainder. -/
def parseCommaGroups : List Char → List Char × List Char
  | ',' :: a :: b :: c :: rest =>
    if a.isDigit && b.isDigit && c.isDigit then
      let g := parseCommaGroups rest
      (',' :: a :: b :: c :: g.1, g.2)
    else ([], ',' :: a :: b :: c :: rest)
  | s => ([], s)

/-- Optional decimal part of the amount pattern: a dot followed by exactly
two digits. Returns the matched characters and the remainder. -/
def parseDecimalPart : List Char → List Char × List Char
  | '.' :: a :: b :: rest =>
    if a.isDigit && b.isDigit then (['.', a, b], rest)
    else ([], '.' :: a :: b :: rest)
  | s => ([], s)

/-- Fuelled scanner for `re.findall` of the amount pattern
`\$?(\d+(?:,\d\x7b3\x7d)*(?:\.\d\x7b2\x7d)?)`: at each position a digit
starts a greedy match (digit run, comma groups, optional two-digit decimal)
and scanning resumes after the match. The fuel only bounds recursion and
never runs out when it starts at the input length. -/
def findAmountsAux : ℕ → List Char → List (List Char)
  | 0, _ => []
  | _, [] => []
  | fuel + 1, c :: rest =>
    if c.isDigit then
      let digits := (c :: rest).takeWhile Char.isDigit
      let afterDigits := (c :: rest).dropWhile Char.isDigit
      let groups := parseCommaGroups afterDigits
      let dec := parseDecimalPart groups.2
      (digits ++ groups.1 ++ dec.1) :: findAmountsAux fuel dec.2
    else findAmountsAux fuel rest

/-- `re.findall(r'...', message)` for the emergency-buffer amount. -/
def findAmounts (s : List Char) : List (List Char) := findAmountsAux s.length s

/-- The profile patch and response of a recognized command. -/
inductive CommandAction
  | setIntensity (mode : IntensityMode)
  | setEmergencyBuffer (amount : List Char)
deriving DecidableEq, Repr

/-- Python `float(amounts[0].replace(',', ''))` followed by the reply's
two-decimal formatting `\x7bamount:.2f\x7d`, on the strings the amount
pattern can match (a digit run with optional comma groups of three digits
and an optional two-digit decimal part): the commas are removed, leading
zeros of the integer part are dropped (keeping at least one digit), and
the fraction is padded to exactly two digits, so "500" renders as
"500.00" and "1,234.56" as "1234.56" — the decimal value the float
round-trip produces for amounts in the float's exact range. -/
def formatAmountUSD (amount : List Char) : List Char :=
  let noCommas := amount.filter (fun c => c ≠ ',')
  let intPart := noCommas.takeWhile (fun c => c ≠ '.')
  let fracPart := (noCommas.dropWhile (fun c => c ≠ '.')).drop 1
  let intTrimmed :=
    match intPart.dropWhile (fun c => c = '0') with
    | [] => ['0']
    | l => l
  let frac := if fracPart = [] then ['0', '0'] else fracPart
  intTrimmed ++ ['.'] ++ frac

/-- `ChatServiceV2.handle_command`: intensity-mode commands are checked
first (insanity, then mild, then moderate); when the intensity phrase
matches but no mode does, control falls through to the emergency-buffer
check, which requires a matched amount. `none` means the message is not a
command. -/
def intensityCommand (messageLower : List Char) :
    Option (CommandAction × List Char) :=
  if containsSub (lit "set intensity") messageLower ||
      containsSub (lit "intensity mode") messageLower then
    if containsSub (lit "insanity") messageLower then
      some (.setIntensity .insanity,
        lit "Insanity mode activated. Maximum roasting enabled. No mercy.")
    else if containsSub (lit "mild") messageLower then
      some (.setIntensity .mild,
        lit "Mild mode set. I'll go easy on you. (For now.)")
    else if containsSub (lit "moderate") messageLower then
      some (.setIntensity .moderate,
        lit "Moderate mode locked in. Balanced roasting incoming.")
    else none
  else none

/-- The emergency-buffer branch of `handle_command`: it requires the
buffer phrase and a matched amount in the original message. -/
def bufferCommand (message messageLower : List Char) :
    Option (CommandAction × List Char) :=
  if containsSub (lit "emergency buffer") messageLower ||
      containsSub (lit "safety buffer") messageLower then
    match findAmounts message with
    | [] => none
    | amount :: _ =>
      some (.setEmergencyBuffer amount,
        lit "Emergency buffer set to $" ++ formatAmountUSD amount ++
          lit ". Your money is protected.")
  else none

/-- `handle_command` proper: the intensity branch, falling through to the
buffer branch (in the code, a matched intensity phrase without a valid
mode does not return, so control reaches the buffer check). -/
def handleCommand (message : List Char) :
    Option (CommandAction × List Char) :=
  let messageLower := lowerStr message
  match intensityCommand messageLower with
  | some r => some r
  | none => bufferCommand message messageLower

/-- Collaborator invocations observable inside `ChatServiceV2.chat`. -/
inductive ChatEffect
  | updateProfileIntensity (mode : IntensityMode)
  | updateProfileBuffer (amount : List Char)
  | invalidateStaticCache
  | saveUserMessage
  | saveAssistantMessage
  | classifierCall
  | budgetGuardCheck
  | adapterInvoke (a : Adapter)
deriving DecidableEq, Repr

/-- The side effects `handle_command` performs for a recognized command:
the profile update followed by `invalidate_on_profile_update`, which
deletes the user's static cache tier. -/
def commandEffects : CommandAction → List ChatEffect
  | .setIntensity m => [.updateProfileIntensity m, .invalidateStaticCache]
  | .setEmergencyBuffer amt =>
    [.updateProfileBuffer amt, .invalidateStaticCache]

/-- The response dict of `ChatServiceV2.chat`. -/
structure ChatResult where
  message : List Char
  model : List Char
  intentTag : List Char
  inputTokens : ℕ
  outputTokens : ℕ
  cachedTokens : ℕ
  cost : ℚ
deriving DecidableEq, Repr

/-- The command phase at the top of `ChatServiceV2.chat`: when
`handle_command` recognizes the message, its effects run, both messages
are saved, and the dict with model "command", intent "command", zero
tokens and cost 0 is returned; `none` means the message proceeds to the
routing pipeline (classifier, context, model adapters). -/
def chatCommandPhase (message : List Char) :
    Option (ChatResult × List ChatEffect) :=
  match handleCommand message with
  | some r =>
    some (⟨r.2, lit "command", lit "command", 0, 0, 0, 0⟩,
      commandEffects r.1 ++ [.saveUserMessage, .saveAssistantMessage])
  | none => none

/-- Modelled from the spec's presentation of the local phase: the same
rules as `_local_intent_heuristics`, as an explicit ordered list of
(predicate, label) pairs. -/
def heuristicRules : List ((List Char → Bool) × ModelIntent) :=
  [(fun s => containsAny s roastWords, .roast),
   (fun s => startsWithAny s greetingWords, .roast),
   (fun s => containsAny s adviceTriggers, .advice),
   (fun s => containsSub (lit "category") s || containsSub (lit "categorize") s,
     .categorize),
   (fun s => containsAny s receiptWords, .receipt),
   (fun s => containsAny s complaintWords, .sensitive),
   (fun s => containsAny s settingsWords, .sensitive)]

/-- First matching rule of the ordered rule list, if any. -/
def firstMatchRule (s : List Char) : Option ModelIntent :=
  (heuristicRules.find? (fun r => r.1 s)).map (fun r => r.2)

/-! ## Theorems -/

/-- `_calculate_cost` on all-zero token counts is exactly zero. -/
lemma calculateCost_zero (model : List Char) : calculateCost model 0 0 0 = 0 := by
  simp [calculateCost]

/-- Claim C1 (amended): the router's recorded cost equals
`p_in · (inputTokens − cachedTokens) + p_cached · cachedTokens +
p_out · outputTokens` with the rates of `COSTS.get(model, grok row)`, where
the fresh-input term is **not** clamped at zero; whenever
`cachedTokens ≤ inputTokens` this agrees with the spec's clamped formula. -/
theorem calculateCost_identity (model : List Char) (i o c : ℕ) :
    calculateCost model i o c =
      (costsGet model).inputRate * ((i : ℚ) - (c : ℚ)) / 1000000 +
        (costsGet model).cachedRate * (c : ℚ) / 1000000 +
        (costsGet model).outputRate * (o : ℚ) / 1000000 ∧
    (c ≤ i → calculateCost model i o c = specCostOf model i o c) := by
  constructor
  · unfold calculateCost
    ring
  · intro h
    unfold calculateCost specCostOf
    have hmax : max 0 ((i : ℤ) - (c : ℤ)) = (i : ℤ) - (c : ℤ) := by
      rw [max_eq_right]
      omega
    rw [hmax]
    push_cast
    ring

/-- Witness for C1's theorem at a concrete input. -/
theorem calculateCost_identity_witness :
    calculateCost (lit "grok-4-fast") 10 5 3 =
      specCostOf (lit "grok-4-fast") 10 5 3 :=
  (calculateCost_identity (lit "grok-4-fast") 10 5 3).2 (by decide)

/-- The grok price row, as the table lookup returns it. -/
lemma costsGet_grok : costsGet (lit "grok-4-fast") = ⟨2/10, 5/10, 5/100⟩ := rfl

/-- Counterexample for C1 as stated: with `cachedTokens > inputTokens` the
recorded cost differs from the spec's clamped formula (the code charges a
negative fresh-input amount). -/
theorem calculateCost_clamp_counterexample :
    calculateCost (lit "grok-4-fast") 0 0 4 ≠
      specCostOf (lit "grok-4-fast") 0 0 4 := by
  unfold calculateCost specCostOf
  rw [costsGet_grok]
  norm_num

/-- Claim C3: for every terminal intent the dispatched adapter is exactly
the row of the intent→model table — Roast and General go to the Grok
adapter, Advice and Sensitive to the Claude adapter, Categorize and
Receipt to the Gemini adapter; in particular Sensitive is dispatched only
to the Claude adapter. -/
theorem routeDispatch_follows_table (o : CallOutcome) (n : List Char)
    (ch : Fin 3) :
    (routeDispatch .roast o n ch).1 = .grok ∧
    (routeDispatch .general o n ch).1 = .grok ∧
    (routeDispatch .advice o n ch).1 = .claude ∧
    (routeDispatch .sensitive o n ch).1 = .claude ∧
    (routeDispatch .categorize o n ch).1 = .gemini ∧
    (routeDispatch .receipt o n ch).1 = .gemini := by
  refine ⟨?_, ?_, ?_, ?_, ?_, ?_⟩ <;> rfl

/-- Claim C6: a remote-classifier failure never fails the request — for
any message with no local match, both failure outcomes (transport/status
error and unparsable output) yield the decision `(roast, 0.5)` with the
fallback reasoning, from the remote phase. -/
theorem remote_failure_degrades_to_roast (message : List Char)
    (h : localIntentHeuristics message = none) :
    classifyIntent message .httpError =
      ⟨.roast, 1/2, some (lit "fallback due to error")⟩ ∧
    classifyIntent message .parseFailure =
      ⟨.roast, 1/2, some (lit "fallback due to error")⟩ := by
  constructor <;> simp [classifyIntent, h, geminiClassifyIntent]

/-- Witness for C6's theorem at a concrete non-matching message. -/
theorem remote_failure_degrades_to_roast_witness :
    classifyIntent (lit "xyzzy") RemoteOutcome.httpError =
      ⟨.roast, 1/2, some (lit "fallback due to error")⟩ :=
  (remote_failure_degrades_to_roast (lit "xyzzy") (by decide)).1

/-- Claim C8 (amended): `check_budget_available` refuses exactly when
`tokensUsed + 3 · estimatedInputTokens ≥ T_MAX_DAY` (boundary included),
and `estimate_tokens` is the floor `len // 4` with no added overhead. -/
theorem checkBudgetAvailable_boundary (inT outT est : ℕ) (s : List Char) :
    (checkBudgetAvailable inT outT est = false ↔
      MAX_TOKENS_PER_DAY ≤ inT + outT + est * 3) ∧
    estimateTokens s = s.length / 4 := by
  constructor
  · simp [checkBudgetAvailable]
  · rfl

/-- Counterexample for C8 as stated: at the exact boundary the code
refuses although `tokensUsed + 3·est > T_MAX_DAY` is false, and the
estimate for a 3-character message is the floor 0, not the ceiling 1. -/
theorem checkBudgetAvailable_counterexample :
    checkBudgetAvailable 100000 0 0 = false ∧
    ¬ (100000 + 3 * 0 > MAX_TOKENS_PER_DAY) ∧
    estimateTokens (lit "abc") = 0 ∧
    ((lit "abc").length + 4 - 1) / 4 = 1 := by
  decide

/-- Claim C4 (amended): when the primary adapter call raises a terminal
error, the invoked adapter is still exactly the table row (no cross-model
failover — the error is absorbed inside that adapter's own call helper),
the response carries zero input, output and cached tokens, its cost is 0,
its model id is the adapter-specific fallback id ("fallback" for Grok,
"claude-fallback" for Claude, "gemini-fallback" for Gemini — not
"synthetic-fallback"), and its text is drawn from the built-in fallback
set. -/
theorem fallback_is_local_and_zero (intent : ModelIntent) (n : List Char)
    (ch : Fin 3) :
    (routeDispatch intent CallOutcome.error n ch).1 = dispatchAdapter intent ∧
    (routeDispatch intent CallOutcome.error n ch).2.inputTokens = 0 ∧
    (routeDispatch intent CallOutcome.error n ch).2.outputTokens = 0 ∧
    (routeDispatch intent CallOutcome.error n ch).2.cachedTokens = 0 ∧
    (routeDispatch intent CallOutcome.error n ch).2.cost = 0 ∧
    (routeDispatch intent CallOutcome.error n ch).2.model ∈
      [lit "fallback", lit "claude-fallback", lit "gemini-fallback"] ∧
    (routeDispatch intent CallOutcome.error n ch).2.content ∈
      grokFallbackRoasts n ++
        [lit "I'm having trouble thinking clearly right now. Can you try again?",
         lit "Let me help you with categories. What would you like to know?"] := by
  cases intent with
  | roast =>
    refine ⟨rfl, rfl, rfl, rfl, ?_, ?_, ?_⟩
    · show calculateCost (lit "fallback") 0 0 0 = 0
      exact calculateCost_zero _
    · show lit "fallback" ∈ _
      decide
    · show (grokFallbackRoasts n).get _ ∈ _
      exact List.mem_append_left _ (List.get_mem _ _ _)
  | general =>
    refine ⟨rfl, rfl, rfl, rfl, ?_, ?_, ?_⟩
    · show calculateCost (lit "fallback") 0 0 0 = 0
      exact calculateCost_zero _
    · show lit "fallback" ∈ _
      decide
    · show (grokFallbackRoasts n).get _ ∈ _
      exact List.mem_append_left _ (List.get_mem _ _ _)
  | advice =>
    refine ⟨rfl, rfl, rfl, rfl, ?_, ?_, ?_⟩
    · show calculateCost (lit "claude-fallback") 0 0 0 = 0
      exact calculateCost_zero _
    · show lit "claude-fallback" ∈ _
      decide
    · refine List.mem_append_right _ ?_
      show lit "I'm having trouble thinking clearly right now. Can you try again?" ∈ _
      decide
  | sensitive =>
    refine ⟨rfl, rfl, rfl, rfl, ?_, ?_, ?_⟩
    · show calculateCost (lit "claude-fallback") 0 0 0 = 0
      exact calculateCost_zero _
    · show lit "claude-fallback" ∈ _
      decide
    · refine List.mem_append_right _ ?_
      show lit "I'm having trouble thinking clearly right now. Can you try again?" ∈ _
      decide
  | categorize =>
    refine ⟨rfl, rfl, rfl, rfl, ?_, ?_, ?_⟩
    · show calculateCost (lit "gemini-fallback") 0 0 0 = 0
      exact calculateCost_zero _
    · show lit "gemini-fallback" ∈ _
      decide
    · refine List.mem_append_right _ ?_
      show lit "Let me help you with categories. What would you like to know?" ∈ _
      decide
  | receipt =>
    refine ⟨rfl, rfl, rfl, rfl, ?_, ?_, ?_⟩
    · show calculateCost (lit "gemini-fallback") 0 0 0 = 0
      exact calculateCost_zero _
    · show lit "gemini-fallback" ∈ _
      decide
    · refine List.mem_append_right _ ?_
      show lit "Let me help you with categories. What would you like to know?" ∈ _
      decide

/-- Counterexample for C4 as stated: the usage record of a failed Claude
call carries the model id "claude-fallback", not "synthetic-fallback". -/
theorem fallback_model_id_counterexample :
    (routeDispatch ModelIntent.advice CallOutcome.error (lit "Bob") 0).2.model =
      lit "claude-fallback" ∧
    lit "claude-fallback" ≠ lit "synthetic-fallback" := by
  exact ⟨rfl, by decide⟩

/-- Claim C5 (amended): the local phase is exactly the ordered first-match
rule list of the code (the spec's rules plus the advice triggers "help me"
and "what do you think about buying"), every local match is returned with
the single fixed confidence 0.85 and reasoning "local heuristics", and a
message matching no rule is classified by the remote fallback. -/
theorem local_rules_first_match_uniform (m : List Char) (i : ModelIntent)
    (r : RemoteOutcome) :
    localIntentHeuristics m = firstMatchRule (stripStr (lowerStr m)) ∧
    (localIntentHeuristics m = some i →
      classifyIntent m r = ⟨i, 85/100, some (lit "local heuristics")⟩) ∧
    (localIntentHeuristics m = none →
      classifyIntent m r = geminiClassifyIntent r) := by
  refine ⟨?_, fun h => by simp [classifyIntent, h], fun h => by simp [classifyIntent, h]⟩
  by_cases h1 : containsAny (stripStr (lowerStr m)) roastWords = true <;>
  by_cases h2 : startsWithAny (stripStr (lowerStr m)) greetingWords = true <;>
  by_cases h3 : containsAny (stripStr (lowerStr m)) adviceTriggers = true <;>
  by_cases h4 : (containsSub (lit "category") (stripStr (lowerStr m)) ||
    containsSub (lit "categorize") (stripStr (lowerStr m))) = true <;>
  by_cases h5 : containsAny (stripStr (lowerStr m)) receiptWords = true <;>
  by_cases h6 : containsAny (stripStr (lowerStr m)) complaintWords = true <;>
  by_cases h7 : containsAny (stripStr (lowerStr m)) settingsWords = true <;>
  simp [localIntentHeuristics, firstMatchRule, heuristicRules, List.find?,
    h1, h2, h3, h4, h5, h6, h7]

/-- Witness for C5's theorem at a concrete locally matched message. -/
theorem local_rules_first_match_uniform_witness :
    classifyIntent (lit "roast me") RemoteOutcome.httpError =
      ⟨ModelIntent.roast, 85/100, some (lit "local heuristics")⟩ :=
  (local_rules_first_match_uniform (lit "roast me") ModelIntent.roast
    RemoteOutcome.httpError).2.1 (by decide)

/-- Counterexample for C5 as stated: the greeting "hi" is classified
locally with confidence 0.85, not the 0.80 the claim assigns to greeting
prefixes. -/
theorem greeting_confidence_counterexample :
    classifyIntent (lit "hi") RemoteOutcome.httpError =
      ⟨ModelIntent.roast, 85/100, some (lit "local heuristics")⟩ ∧
    (85/100 : ℚ) ≠ 80/100 :=
  ⟨rfl, by norm_num⟩

/-- Lowering a whitespace character yields a whitespace character. -/
lemma toLower_isWhitespace {c : Char} (h : c.isWhitespace = true) :
    (Char.toLower c).isWhitespace = true := by
  simp only [Char.isWhitespace, Bool.or_eq_true, decide_eq_true_eq] at h
  rcases h with ((h | h) | h) | h <;> subst h <;> decide

/-- Stripping an all-whitespace message (after lowering) leaves nothing. -/
lemma stripStr_all_ws {m : List Char} (h : ∀ c ∈ m, c.isWhitespace = true) :
    stripStr (lowerStr m) = [] := by
  have h2 : ∀ c ∈ lowerStr m, c.isWhitespace = true := by
    intro c hc
    simp only [lowerStr, List.mem_map] at hc
    obtain ⟨d, hd, rfl⟩ := hc
    exact toLower_isWhitespace (h d hd)
  unfold stripStr
  rw [List.dropWhile_eq_nil_iff.2 h2]
  simp

/-- On an empty stripped message every heuristic rule fails. -/
lemma localIntentHeuristics_of_strip_nil {m : List Char}
    (h : stripStr (lowerStr m) = []) : localIntentHeuristics m = none := by
  simp only [localIntentHeuristics, h]
  decide

/-- Claim C7 (amended): an empty or whitespace-only message matches no
local heuristic rule, so it is classified by the remote fallback (not
returned as `(general, 0.5, local)` without a remote call). -/
theorem whitespace_message_goes_remote (m : List Char)
    (h : ∀ c ∈ m, c.isWhitespace = true) :
    localIntentHeuristics m = none ∧
    ∀ r, classifyIntent m r = geminiClassifyIntent r := by
  have hnone := localIntentHeuristics_of_strip_nil (stripStr_all_ws h)
  exact ⟨hnone, fun r => by simp [classifyIntent, hnone]⟩

/-- Witness for C7's theorem on a two-space message. -/
theorem whitespace_message_goes_remote_witness :
    localIntentHeuristics (lit "  ") = none ∧
    classifyIntent (lit "  ") RemoteOutcome.httpError =
      geminiClassifyIntent RemoteOutcome.httpError :=
  ⟨(whitespace_message_goes_remote (lit "  ") (by decide)).1,
   (whitespace_message_goes_remote (lit "  ") (by decide)).2 RemoteOutcome.httpError⟩

/-- Counterexample for C7 as stated: the empty message matches no local
rule, so the classifier issues the remote call; on a failing remote the
decision is Roast, not the claimed local General. -/
theorem empty_message_counterexample :
    localIntentHeuristics (lit "") = none ∧
    (classifyIntent (lit "") RemoteOutcome.httpError).intent =
      ModelIntent.roast ∧
    ModelIntent.roast ≠ ModelIntent.general := by
  exact ⟨rfl, rfl, by decide⟩

/-- Claim C9 (amended): on any refusal the wrapped handler does not run
(so nothing is written to the ledger for the request); a `RateExceeded`
refusal leaves the window as the cleaned list without the new arrival, but
a `TokenBudgetExceeded` or `CostBudgetExceeded` refusal happens after the
rate check already appended the arrival time, which therefore remains
recorded in the user's 60-second window. -/
theorem refusal_state_effects (now : ℤ) (w : List ℤ) (tok : ℕ) (cost : ℚ)
    (k : RefusalKind)
    (h : (rateLimitWrapper now w tok cost).1 = some k) :
    (rateLimitWrapper now w tok cost).2.2 = false ∧
    (rateLimitWrapper now w tok cost).2.1 =
      (if k = RefusalKind.rateExceeded then
        w.filter (fun t => now - 60 < t)
       else w.filter (fun t => now - 60 < t) ++ [now]) := by
  by_cases hc : 10 ≤ (w.filter (fun t => decide (now - 60 < t))).length
  · simp only [rateLimitWrapper, rateLimitCheck, MAX_REQUESTS_PER_MINUTE,
      hc, if_true, if_pos] at h ⊢
    simp at h
    subst h
    simp
  · by_cases ht : MAX_TOKENS_PER_DAY ≤ tok
    · simp only [rateLimitWrapper, rateLimitCheck, tokenLimitCheck,
        MAX_REQUESTS_PER_MINUTE, hc, ht, if_true, if_false, ite_false,
        ite_true] at h ⊢
      simp [hc, ht] at h ⊢
      subst h
      simp
    · by_cases hco : MAX_COST_PER_DAY ≤ cost
      · simp only [rateLimitWrapper, rateLimitCheck, tokenLimitCheck,
          MAX_REQUESTS_PER_MINUTE] at h ⊢
        simp [hc, ht, hco] at h ⊢
        subst h
        simp
      · simp only [rateLimitWrapper, rateLimitCheck, tokenLimitCheck,
          MAX_REQUESTS_PER_MINUTE] at h
        simp [hc, ht, hco] at h

/-- Witness for C9's theorem: a rate-exceeded refusal on a full window. -/
theorem refusal_state_effects_witness :
    (rateLimitWrapper 0 [0, 0, 0, 0, 0, 0, 0, 0, 0, 0] 0 0).2.2 = false ∧
    (rateLimitWrapper 0 [0, 0, 0, 0, 0, 0, 0, 0, 0, 0] 0 0).2.1 =
      (if RefusalKind.rateExceeded = RefusalKind.rateExceeded then
        ([0, 0, 0, 0, 0, 0, 0, 0, 0, 0] : List ℤ).filter
          (fun t => (0 : ℤ) - 60 < t)
       else ([0, 0, 0, 0, 0, 0, 0, 0, 0, 0] : List ℤ).filter
          (fun t => (0 : ℤ) - 60 < t) ++ [0]) :=
  refusal_state_effects 0 [0, 0, 0, 0, 0, 0, 0, 0, 0, 0] 0 0
    RefusalKind.rateExceeded (by decide)

/-- Counterexample for C9 as stated: a request refused with
`TokenBudgetExceeded` leaves its arrival timestamp (1000) recorded in the
user's rate window. -/
theorem token_refusal_keeps_timestamp :
    (rateLimitWrapper 1000 [] 100000 0).1 =
      some RefusalKind.tokenBudgetExceeded ∧
    (rateLimitWrapper 1000 [] 100000 0).2.1 = [1000] := by
  exact ⟨rfl, rfl⟩

/-- Every record of a run carries one of the processed call times. -/
lemma rateLimitRun_mem_times {st calls : List ℤ} {p : ℤ × Bool}
    (hp : p ∈ rateLimitRun st calls) : p.1 ∈ calls := by
  induction calls generalizing st with
  | nil => simp [rateLimitRun] at hp
  | cons now rest ih =>
    simp only [rateLimitRun] at hp
    rcases List.mem_cons.mp hp with h | h
    · simp [h]
    · exact List.mem_cons_of_mem _ (ih h)

/-- Unfolding equation for one step of a run. -/
lemma rateLimitRun_cons (st : List ℤ) (now : ℤ) (rest : List ℤ) :
    rateLimitRun st (now :: rest) =
      (now, (rateLimitCheck now st).2) ::
        rateLimitRun (rateLimitCheck now st).1 rest := rfl

/-- Window-admit count of a cons. -/
lemma countWindowAdmits_cons (a t : ℤ) (b : Bool) (run : List (ℤ × Bool)) :
    countWindowAdmits a ((t, b) :: run) =
      countWindowAdmits a run +
        (if b && decide (a < t) && decide (t ≤ a + 60) then 1 else 0) := by
  simp [countWindowAdmits, List.countP_cons]

/-- Calls arriving after `a + 60` contribute nothing to the window
`(a, a + 60]`. -/
lemma countWindowAdmits_zero_of_late {a : ℤ} {st rest : List ℤ}
    (h : ∀ c ∈ rest, a + 60 < c) :
    countWindowAdmits a (rateLimitRun st rest) = 0 := by
  rw [countWindowAdmits, List.countP_eq_zero]
  intro p hp
  have h2 := h p.1 (rateLimitRun_mem_times hp)
  simp only [Bool.and_eq_true, decide_eq_true_eq, not_and]
  rintro ⟨-, -⟩
  omega

/-- Cleaning at a time `now ≤ a + 60` discards no stamp above `a`. -/
lemma countP_filter_window {a now : ℤ} (st : List ℤ) (h : now ≤ a + 60) :
    (st.filter (fun t => decide (now - 60 < t))).countP
        (fun t => decide (a < t)) =
      st.countP (fun t => decide (a < t)) := by
  rw [List.countP_filter]
  apply le_antisymm
  · refine List.countP_mono_left fun x _ hx => ?_
    simp only [Bool.and_eq_true, decide_eq_true_eq] at hx ⊢
    exact hx.1
  · refine List.countP_mono_left fun x _ hx => ?_
    simp only [Bool.and_eq_true, decide_eq_true_eq] at hx ⊢
    exact ⟨hx, by omega⟩

/-- Invariant bound for runs of `rate_limit_check`: starting from a stored
window whose stamps precede all the (sorted) future call times and holds
at most 10 entries, the admits that fall in `(a, a + 60]` plus the stored
stamps above `a` never exceed 10. -/
lemma rateLimitRun_bound (a : ℤ) (calls : List ℤ) :
    ∀ st : List ℤ, List.Sorted (· ≤ ·) calls →
      (∀ t ∈ st, ∀ c ∈ calls, t ≤ c) → st.length ≤ 10 →
      countWindowAdmits a (rateLimitRun st calls) +
        st.countP (fun t => decide (a < t)) ≤ 10 := by
  induction calls with
  | nil =>
    intro st _ _ hlen
    have := le_trans (List.countP_le_length (fun t => decide (a < t))) hlen
    simpa [rateLimitRun, countWindowAdmits] using this
  | cons now rest ih =>
    intro st hsorted hle hlen
    obtain ⟨hnowle, hsorted'⟩ := List.sorted_cons.mp hsorted
    by_cases hcase : 10 ≤ (st.filter (fun t => decide (now - 60 < t))).length
    · -- the check refuses: the stored window becomes the cleaned list
      have hstep : rateLimitCheck now st =
          (st.filter (fun t => decide (now - 60 < t)), false) := by
        simp [rateLimitCheck, MAX_REQUESTS_PER_MINUTE, hcase]
      have hrun : rateLimitRun st (now :: rest) =
          (now, false) ::
            rateLimitRun (st.filter (fun t => decide (now - 60 < t))) rest := by
        rw [rateLimitRun_cons, hstep]
      rw [hrun, countWindowAdmits_cons]
      simp only [Bool.false_and, Bool.false_eq_true, if_false]
      by_cases hwin : now ≤ a + 60
      · have hcnt := countP_filter_window st hwin
        have hIH := ih (st.filter (fun t => decide (now - 60 < t))) hsorted'
          (fun t ht c hc =>
            hle t (List.mem_filter.mp ht).1 c (List.mem_cons_of_mem _ hc))
          (le_trans (List.length_filter_le _ _) hlen)
        omega
      · have hlater : ∀ c ∈ rest, a + 60 < c := fun c hc =>
          lt_of_lt_of_le (by omega) (hnowle c hc)
        have hzero := @countWindowAdmits_zero_of_late a
          (st.filter (fun t => decide (now - 60 < t))) rest hlater
        have hcount := le_trans
          (List.countP_le_length (fun t => decide (a < t))) hlen
        omega
    · -- the check admits: the arrival time is appended
      have hstep : rateLimitCheck now st =
          (st.filter (fun t => decide (now - 60 < t)) ++ [now], true) := by
        simp [rateLimitCheck, MAX_REQUESTS_PER_MINUTE, hcase]
      have hrun : rateLimitRun st (now :: rest) =
          (now, true) ::
            rateLimitRun
              (st.filter (fun t => decide (now - 60 < t)) ++ [now]) rest := by
        rw [rateLimitRun_cons, hstep]
      rw [hrun, countWindowAdmits_cons]
      have hmem : ∀ t ∈ st.filter (fun t => decide (now - 60 < t)) ++ [now],
          ∀ c ∈ rest, t ≤ c := by
        intro t ht c hc
        rcases List.mem_append.mp ht with h | h
        · exact hle t (List.mem_filter.mp h).1 c (List.mem_cons_of_mem _ hc)
        · have ht' : t = now := by simpa using h
          rw [ht']
          exact hnowle c hc
      have hlen' :
          (st.filter (fun t => decide (now - 60 < t)) ++ [now]).length ≤ 10 := by
        rw [List.length_append]
        simp only [List.length_singleton]
        omega
      have hIH := ih (st.filter (fun t => decide (now - 60 < t)) ++ [now])
        hsorted' hmem hlen'
      have hsplit :
          (st.filter (fun t => decide (now - 60 < t)) ++ [now]).countP
              (fun t => decide (a < t)) =
            (st.filter (fun t => decide (now - 60 < t))).countP
                (fun t => decide (a < t)) +
              (if a < now then 1 else 0) := by
        rw [List.countP_append]
        simp [List.countP_cons]
      by_cases hwin : now ≤ a + 60
      · have hcnt := countP_filter_window st hwin
        have hhead :
            (if true && decide (a < now) && decide (now ≤ a + 60) then 1
             else 0) = (if a < now then 1 else 0) := by
          by_cases han : a < now <;> simp [han, hwin]
        omega
      · have hlater : ∀ c ∈ rest, a + 60 < c := fun c hc =>
          lt_of_lt_of_le (by omega) (hnowle c hc)
        have hzero := @countWindowAdmits_zero_of_late a
          (st.filter (fun t => decide (now - 60 < t)) ++ [now]) rest hlater
        have hcount := le_trans
          (List.countP_le_length (fun t => decide (a < t))) hlen
        have hhead :
            (if true && decide (a < now) && decide (now ≤ a + 60) then 1
             else 0) = 0 := by
          simp [hwin]
        omega

/-- Claim C2: for a user's (time-ordered) sequence of rate-limit checks,
at most 10 (= `MAX_REQUESTS_PER_MINUTE`) checks whose arrival time lies in
any 60-second window `(a, a + 60]` are admitted; moreover each check
refuses exactly when, after discarding the timestamps at or below
`now − 60`, at least 10 remain. -/
theorem rate_window_bound (calls : List ℤ)
    (hsorted : List.Sorted (· ≤ ·) calls) (a : ℤ) (st : List ℤ) (now : ℤ) :
    countWindowAdmits a (rateLimitRun [] calls) ≤ 10 ∧
    ((rateLimitCheck now st).2 = false ↔
      10 ≤ (st.filter (fun t => now - 60 < t)).length) := by
  constructor
  · have h := rateLimitRun_bound a calls [] hsorted (by simp) (by simp)
    simpa using h
  · unfold rateLimitCheck
    by_cases hc : 10 ≤ (st.filter (fun t => decide (now - 60 < t))).length
    · simp [MAX_REQUESTS_PER_MINUTE, hc]
    · simp [MAX_REQUESTS_PER_MINUTE, hc]

/-- Witness for C2's theorem on a concrete sorted arrival sequence. -/
theorem rate_window_bound_witness :
    countWindowAdmits 0 (rateLimitRun [] [0, 1, 2]) ≤ 10 ∧
    ((rateLimitCheck 0 []).2 = false ↔
      10 ≤ (([] : List ℤ).filter (fun t => (0 : ℤ) - 60 < t)).length) :=
  rate_window_bound [0, 1, 2] (by decide) 0 [] 0

/-- A matched intensity phrase together with a valid mode always yields an
intensity command. -/
lemma intensityCommand_isSome {ml : List Char}
    (hp : containsSub (lit "set intensity") ml = true ∨
          containsSub (lit "intensity mode") ml = true)
    (hm : containsSub (lit "insanity") ml = true ∨
          containsSub (lit "mild") ml = true ∨
          containsSub (lit "moderate") ml = true) :
    (intensityCommand ml).isSome = true := by
  have hor : (containsSub (lit "set intensity") ml ||
      containsSub (lit "intensity mode") ml) = true := by
    rcases hp with h | h <;> simp [h]
  unfold intensityCommand
  rw [if_pos hor]
  by_cases h1 : containsSub (lit "insanity") ml = true
  · simp [h1]
  · by_cases h2 : containsSub (lit "mild") ml = true
    · simp [h1, h2]
    · by_cases h3 : containsSub (lit "moderate") ml = true
      · simp [h1, h2, h3]
      · rcases hm with h | h | h <;> simp_all

/-- A matched buffer phrase together with a matched amount always yields a
buffer command. -/
lemma bufferCommand_isSome {message ml : List Char}
    (hp : containsSub (lit "emergency buffer") ml = true ∨
          containsSub (lit "safety buffer") ml = true)
    (ha : findAmounts message ≠ []) :
    (bufferCommand message ml).isSome = true := by
  have hor : (containsSub (lit "emergency buffer") ml ||
      containsSub (lit "safety buffer") ml) = true := by
    rcases hp with h | h <;> simp [h]
  unfold bufferCommand
  rw [if_pos hor]
  cases hfa : findAmounts message with
  | nil => exact absurd hfa ha
  | cons amount rest => simp

/-- `handle_command` recognizes every message matching the claim's
conditions. -/
lemma handleCommand_some_of {message : List Char}
    (h : ((containsSub (lit "set intensity") (lowerStr message) = true ∨
           containsSub (lit "intensity mode") (lowerStr message) = true) ∧
          (containsSub (lit "insanity") (lowerStr message) = true ∨
           containsSub (lit "mild") (lowerStr message) = true ∨
           containsSub (lit "moderate") (lowerStr message) = true)) ∨
         ((containsSub (lit "emergency buffer") (lowerStr message) = true ∨
           containsSub (lit "safety buffer") (lowerStr message) = true) ∧
          findAmounts message ≠ [])) :
    (handleCommand message).isSome = true := by
  unfold handleCommand
  cases hint : intensityCommand (lowerStr message) with
  | some r => simp [hint]
  | none =>
    simp only [hint]
    rcases h with ⟨hp, hm⟩ | ⟨hp, ha⟩
    · have hi := intensityCommand_isSome hp hm
      rw [hint] at hi
      simp at hi
    · exact bufferCommand_isSome hp ha

/-- Claim C10: a chat message recognized as a settings command (intensity
phrase with a valid mode, or buffer phrase with a matched amount) is
answered entirely locally — `handle_command` resolves it, the profile is
patched and the static cache tier invalidated, the response carries model
"command" with zero tokens and cost 0, and none of the classifier, the
budget guard or any model adapter is invoked for the message. -/
theorem commands_handled_locally (message : List Char)
    (h : ((containsSub (lit "set intensity") (lowerStr message) = true ∨
           containsSub (lit "intensity mode") (lowerStr message) = true) ∧
          (containsSub (lit "insanity") (lowerStr message) = true ∨
           containsSub (lit "mild") (lowerStr message) = true ∨
           containsSub (lit "moderate") (lowerStr message) = true)) ∨
         ((containsSub (lit "emergency buffer") (lowerStr message) = true ∨
           containsSub (lit "safety buffer") (lowerStr message) = true) ∧
          findAmounts message ≠ [])) :
    (chatCommandPhase message).isSome = true ∧
    ∀ r, chatCommandPhase message = some r →
      r.1.model = lit "command" ∧ r.1.intentTag = lit "command" ∧
      r.1.inputTokens = 0 ∧ r.1.outputTokens = 0 ∧
      r.1.cachedTokens = 0 ∧ r.1.cost = 0 ∧
      ((∃ m, ChatEffect.updateProfileIntensity m ∈ r.2) ∨
        (∃ amt, ChatEffect.updateProfileBuffer amt ∈ r.2)) ∧
      ChatEffect.invalidateStaticCache ∈ r.2 ∧
      ∀ e ∈ r.2, e ≠ ChatEffect.classifierCall ∧
        e ≠ ChatEffect.budgetGuardCheck ∧
        ∀ ad, e ≠ ChatEffect.adapterInvoke ad := by
  constructor
  · have hs := handleCommand_some_of h
    unfold chatCommandPhase
    cases hhc : handleCommand message with
    | none => rw [hhc] at hs; simp at hs
    | some p => simp
  · intro r hr
    unfold chatCommandPhase at hr
    cases hhc : handleCommand message with
    | none => rw [hhc] at hr; simp at hr
    | some p =>
      rw [hhc] at hr
      simp only [Option.some_inj] at hr
      obtain ⟨act, text⟩ := p
      rw [← hr]
      refine ⟨rfl, rfl, rfl, rfl, rfl, rfl, ?_, ?_, ?_⟩
      · cases act with
        | setIntensity m => exact Or.inl ⟨m, by simp [commandEffects]⟩
        | setEmergencyBuffer amt => exact Or.inr ⟨amt, by simp [commandEffects]⟩
      · cases act <;> simp [commandEffects]
      · intro e he
        cases act <;> simp [commandEffects] at he <;>
          rcases he with rfl | rfl | rfl | rfl <;>
          exact ⟨by simp, by simp, fun ad => by simp⟩

/-- Witness for C10's theorem on a concrete intensity command. -/
theorem commands_handled_locally_witness :
    (chatCommandPhase (lit "set intensity insanity")).isSome = true :=
  (commands_handled_locally (lit "set intensity insanity")
    (Or.inl ⟨Or.inl (by decide), Or.inl (by decide)⟩)).1
